import Mathlib

/-!
Verification of the MusicGenreClassifiaction repository core:
the dataset/model lifecycle manager (`music_genre_calssification.py`)
and the file utilities (`file_utils.py`).

Tables are embedded as a header (list of column names) plus a list of
rows of integer values (features and labels are numeric after the
encoding step).  The Python filesystem interface (`os.path.isfile`,
`os.path.isdir`, `os.listdir`, `pandas.read_csv`) is embedded as an
explicit filesystem value that the file utilities consult.
-/

/-- A pandas-style dataframe: named columns, one row of values per sample. -/
@[ext]
structure Table where
  header : List String
  rows : List (List Int)
deriving Repr, DecidableEq, Inhabited

/-- Error taxonomy surfaced by the pipeline. -/
inductive Err where
  | schemaError
  | configError
  | notFoundError
  | ioError
  | assertionError
deriving Repr, DecidableEq

/-- The filesystem as seen through `os.path` / `os.listdir` / `pandas`:
an association list of regular files (csv files holding tables) and an
association list of directories with the names listed inside them. -/
structure PyFS where
  files : List (String × Table)
  dirs : List (String × List String)
deriving Repr, DecidableEq

namespace PyFS

/-- `os.path.isfile`. -/
def isfile (fs : PyFS) (p : String) : Bool :=
  (fs.files.lookup p).isSome

/-- `os.path.isdir`. -/
def isdir (fs : PyFS) (p : String) : Bool :=
  (fs.dirs.lookup p).isSome

/-- `os.listdir`. -/
def listdir (fs : PyFS) (p : String) : List String :=
  (fs.dirs.lookup p).getD []

/-- `pandas.read_csv`: returns the table stored at the path, or fails with
`FileNotFoundError` when no such file exists. -/
def read_csv (fs : PyFS) (p : String) : Except Err Table :=
  match fs.files.lookup p with
  | some t => Except.ok t
  | none => Except.error Err.notFoundError

end PyFS

namespace FileUtil

/-- `FileUtil.is_invalid_file`: `return not os.path.isfile(input_filename)`. -/
def is_invalid_file (fs : PyFS) (input_filename : String) : Bool :=
  !(fs.isfile input_filename)

/-- `FileUtil.is_valid_file`: `return not FileUtil.is_invalid_file(input_filename)`. -/
def is_valid_file (fs : PyFS) (input_filename : String) : Bool :=
  !(is_invalid_file fs input_filename)

/-- `FileUtil.is_invalid_directory`: `return not os.path.isdir(directory_path)`. -/
def is_invalid_directory (fs : PyFS) (directory_path : String) : Bool :=
  !(fs.isdir directory_path)

/-- `FileUtil.is_valid_directory`: `return not FileUtil.is_invalid_directory(directory_path)`. -/
def is_valid_directory (fs : PyFS) (directory_path : String) : Bool :=
  !(is_invalid_directory fs directory_path)

/-- `FileUtil.get_file_length`: the file is its list of lines; the loop
`for i, l in enumerate(input_file): pass` leaves in `i` the index of the
last line (or the initial `0` for an empty file), and `i + 1` is returned. -/
def get_file_length (lines : List String) : Nat :=
  (lines.enum.foldl (fun _ p => p.1) 0) + 1

/-- `FileUtil.get_folder_names`: asserts the directory is valid
(`assert FileUtil.is_invalid_directory(directory_path) is False`), then
returns `os.listdir(directory_path)`. -/
def get_folder_names (fs : PyFS) (directory_path : String) : Except Err (List String) :=
  if is_invalid_directory fs directory_path = false then
    Except.ok (fs.listdir directory_path)
  else
    Except.error Err.assertionError

/-- `FileUtil.dataframe2csv`: `input_dataframe.to_csv(output_filename, index=False)`;
writes (or overwrites) the file at the path. -/
def dataframe2csv (fs : PyFS) (input_dataframe : Table) (output_filename : String) : PyFS :=
  { fs with files := (output_filename, input_dataframe) :: fs.files.filter (fun kv => kv.1 ≠ output_filename) }

/-- `FileUtil.csv2dataframe`: `return pd.read_csv(input_filename)`. -/
def csv2dataframe (fs : PyFS) (input_filename : String) : Except Err Table :=
  fs.read_csv input_filename

end FileUtil

/-- `os.path.join directory filename` for the two snapshot artifact paths. -/
def pathJoin (directory filename : String) : String :=
  directory ++ "/" ++ filename

/-- Round half up of the rational `a / b`, on naturals. -/
def rnd (a b : ℕ) : ℕ :=
  (2 * a + b) / (2 * b)

/-- Drop the column at index `i` from every row. -/
def eraseColRows (i : ℕ) (rows : List (List Int)) : List (List Int) :=
  rows.map (fun r => r.eraseIdx i)

/-- Read the column at index `i` out of every row. -/
def colOf (i : ℕ) (rows : List (List Int)) : List Int :=
  rows.map (fun r => r.getD i 0)

/-- The four aligned structures returned by the split:
`(train_data, test_data, train_label, test_label)`. -/
abbrev SplitResult := Table × Table × List Int × List Int

namespace DataProcess

/-- Modelled from the spec: `DataProcess` is referenced by
`music_genre_calssification.py` but its module is missing from the sources.
`split(table, label_column, test_rate, shuffle)` per spec 4.1: with
`test_rate = p / q` required in `(0, 1)`, optionally permutes the rows with
the process-seeded shuffle `σ`, takes the first `1 - test_rate` fraction
(integer-rounded) of rows as train and the rest as test, and separates the
label column out of each partition.  Fails with `ConfigError` when
`test_rate` is outside `(0, 1)` and with `SchemaError` when the label
column is absent. -/
def split (table : Table) (label_name : String) (p q : ℕ) (shuffle : Bool)
    (σ : List (List Int) → List (List Int)) : Except Err SplitResult :=
  if 0 < p ∧ p < q then
    if label_name ∈ table.header then
      let i := table.header.indexOf label_name
      let rows := if shuffle then σ table.rows else table.rows
      let tc := rnd (rows.length * (q - p)) q
      let data_header := table.header.eraseIdx i
      Except.ok (⟨data_header, eraseColRows i (rows.take tc)⟩,
                 ⟨data_header, eraseColRows i (rows.drop tc)⟩,
                 colOf i (rows.take tc),
                 colOf i (rows.drop tc))
    else Except.error Err.schemaError
  else Except.error Err.configError

/-- Modelled from the spec (missing `DataProcess` module): recombine a
`(data, label)` pair into one table by reinserting the label column. -/
def insert_label (data : Table) (label : List Int) (label_name : String) : Table :=
  ⟨data.header ++ [label_name], (data.rows.zip label).map (fun pr => pr.1 ++ [pr.2])⟩

/-- Modelled from the spec (missing `DataProcess` module): split a persisted
table back into `(data, label)` by extracting the label column; fails with
`SchemaError` when the column is absent. -/
def extract_label (table : Table) (label_name : String) : Except Err (Table × List Int) :=
  if label_name ∈ table.header then
    let i := table.header.indexOf label_name
    Except.ok (⟨table.header.eraseIdx i, eraseColRows i table.rows⟩, colOf i table.rows)
  else
    Except.error Err.schemaError

/-- Modelled from the spec: `persist_snapshot` per spec 4.1: recombines each
`(data, label)` pair, then writes the two tables as the train and test
artifacts inside `directory` (via `FileUtil.dataframe2csv`).  Creates the
directory if absent; fails with `IOError` — before writing anything — if it
already exists and is non-empty. -/
def persist_snapshot (fs : PyFS) (train_data : Table) (train_label : List Int)
    (test_data : Table) (test_label : List Int) (label_name : String)
    (directory : String) : Except Err PyFS :=
  if fs.isdir directory && !(fs.listdir directory).isEmpty then
    Except.error Err.ioError
  else
    let fs1 : PyFS :=
      { fs with dirs := (directory, ["train.csv", "test.csv"]) ::
                          fs.dirs.filter (fun kv => kv.1 ≠ directory) }
    let fs2 := FileUtil.dataframe2csv fs1 (insert_label train_data train_label label_name)
                 (pathJoin directory "train.csv")
    let fs3 := FileUtil.dataframe2csv fs2 (insert_label test_data test_label label_name)
                 (pathJoin directory "test.csv")
    Except.ok fs3

/-- Modelled from the spec (missing `DataProcess` module):
`DataProcess.make_dataset(dataframe, label_name, test_rate, shuffle,
directory)` as called from `MusicGenreClassification.make_dataset`:
split, then persist the snapshot, returning the four structures. -/
def make_dataset (fs : PyFS) (table : Table) (label_name : String) (p q : ℕ)
    (shuffle : Bool) (σ : List (List Int) → List (List Int))
    (directory : String) : Except Err (SplitResult × PyFS) :=
  match split table label_name p q shuffle σ with
  | Except.error e => Except.error e
  | Except.ok res =>
    match persist_snapshot fs res.1 res.2.2.1 res.2.1 res.2.2.2 label_name directory with
    | Except.error e => Except.error e
    | Except.ok fs2 => Except.ok (res, fs2)

/-- Modelled from the spec (missing `DataProcess` module):
`DataProcess.read_dataset(directory, label_name)` as called from
`MusicGenreClassification.read_dataset`: read the two artifacts back
(via `FileUtil.csv2dataframe`) and extract the label column from each. -/
def read_dataset (fs : PyFS) (directory : String) (label_name : String) :
    Except Err SplitResult :=
  match FileUtil.csv2dataframe fs (pathJoin directory "train.csv") with
  | Except.error e => Except.error e
  | Except.ok train_table =>
    match FileUtil.csv2dataframe fs (pathJoin directory "test.csv") with
    | Except.error e => Except.error e
    | Except.ok test_table =>
      match extract_label train_table label_name with
      | Except.error e => Except.error e
      | Except.ok train_pair =>
        match extract_label test_table label_name with
        | Except.error e => Except.error e
        | Except.ok test_pair =>
          Except.ok (train_pair.1, test_pair.1, train_pair.2, test_pair.2)

end DataProcess

/-!
The heap of live dataframe objects, for the frame-effect claim about
`MusicGenreClassification.data_process`: cell `i` of the store holds a
dataframe; Python variables are handles (indices) into the store, and a
transformation applied to a dataframe may mutate the cell it is applied to.
-/

/-- `dataframe.copy()`: allocate a fresh cell holding a copy of cell `i`,
returning the new store and the fresh handle. -/
def dfCopy (store : List Table) (i : ℕ) : List Table × ℕ :=
  (store ++ [store.getD i default], store.length)

/-- Apply a (possibly in-place) transformation to the dataframe in cell `i`. -/
def applyAt (store : List Table) (i : ℕ) (f : Table → Table) : List Table :=
  store.set i (f (store.getD i default))

namespace MusicGenreClassification

/-- `MusicGenreClassification.data_process` (lines 83-96): make a copy of the
input dataframe, then apply `DataProcess.normalize_dataframe` and
`DataProcess.factorize_lebel` to the copy (that module is missing from the
sources, so the two transformations are arbitrary functions `normF` and
`factF`, applied worst-case in place).  Returns the handle of the processed
copy. -/
def data_process (normF factF : Table → Table) (store : List Table) (i : ℕ) :
    List Table × ℕ :=
  let sc := dfCopy store i
  let s2 := applyAt sc.1 sc.2 normF
  let s3 := applyAt s2 sc.2 factF
  (s3, sc.2)

end MusicGenreClassification

/-- The pipeline steps `main` can invoke, in trace order. -/
inductive Op where
  | extractFeatures
  | dataProcess
  | makeDataset
  | readDataset
  | trainModel
  | loadModel
  | testModel
deriving Repr, DecidableEq

/-- The collaborator behaviors of one run.  Each pipeline step is a Python
call that either returns a value or raises, embedded as `Except`; `Model`
is the opaque trained-model handle. -/
structure Collab (Model : Type) where
  feature_extraction : Except Err Table
  data_process : Table → Except Err Table
  make_dataset : Table → Except Err SplitResult
  read_dataset : Except Err SplitResult
  training : Table → List Int → Except Err Model
  load_model : Except Err Model
  test : Model → Table → List Int → Except Err ℚ

/-- The feature-source stage of `main` (lines 149-159): on the fresh path,
feature extraction, then `data_process`, then `make_dataset`; on the reuse
path, `read_dataset` only.  Returns the executed steps and the outcome. -/
def featureStage {Model : Type} (fe : Bool) (c : Collab Model) :
    List Op × Except Err SplitResult :=
  if fe then
    match c.feature_extraction with
    | Except.error e => ([Op.extractFeatures], Except.error e)
    | Except.ok t =>
      match c.data_process t with
      | Except.error e => ([Op.extractFeatures, Op.dataProcess], Except.error e)
      | Except.ok t2 =>
        match c.make_dataset t2 with
        | Except.error e =>
          ([Op.extractFeatures, Op.dataProcess, Op.makeDataset], Except.error e)
        | Except.ok r =>
          ([Op.extractFeatures, Op.dataProcess, Op.makeDataset], Except.ok r)
  else
    match c.read_dataset with
    | Except.error e => ([Op.readDataset], Except.error e)
    | Except.ok r => ([Op.readDataset], Except.ok r)

/-- The model-source stage of `main` (lines 161-166): train (and save) a new
model, or load a persisted one. -/
def modelStage {Model : Type} (tr : Bool) (c : Collab Model) (r : SplitResult) :
    List Op × Except Err Model :=
  if tr then
    match c.training r.1 r.2.2.1 with
    | Except.error e => ([Op.trainModel], Except.error e)
    | Except.ok m => ([Op.trainModel], Except.ok m)
  else
    match c.load_model with
    | Except.error e => ([Op.loadModel], Except.error e)
    | Except.ok m => ([Op.loadModel], Except.ok m)

/-- `main` of `music_genre_calssification.py` (lines 134-179) with the two
run-mode flags as parameters: feature stage, model stage, then the test
step producing the printed accuracy.  An uncaught error at any step aborts
the run (there is no try/except in `main`): the outcome is the first error
and no accuracy exists. -/
def mainRun {Model : Type} (fe tr : Bool) (c : Collab Model) :
    List Op × Except Err ℚ :=
  match featureStage fe c with
  | (ops1, Except.error e) => (ops1, Except.error e)
  | (ops1, Except.ok r) =>
    match modelStage tr c r with
    | (ops2, Except.error e) => (ops1 ++ ops2, Except.error e)
    | (ops2, Except.ok m) =>
      match c.test m r.2.1 r.2.2.2 with
      | Except.error e => (ops1 ++ ops2 ++ [Op.testModel], Except.error e)
      | Except.ok acc => (ops1 ++ ops2 ++ [Op.testModel], Except.ok acc)

/-- Zero-padded decimal digits of `n`, width `w`, most significant first. -/
def padDigits : ℕ → ℕ → List Char
  | 0, _ => []
  | w + 1, n => Char.ofNat (48 + n / 10 ^ w) :: padDigits w (n % 10 ^ w)

/-- A wall-clock reading at sub-second (microsecond) resolution, as used in
the snapshot directory names (`"2019-01-23_23:19:56.871484"`). -/
@[ext]
structure Timestamp where
  year : ℕ
  month : ℕ
  day : ℕ
  hour : ℕ
  minute : ℕ
  second : ℕ
  micro : ℕ
deriving Repr, DecidableEq

/-- Field ranges fitting the fixed-width format. -/
def Timestamp.valid (t : Timestamp) : Prop :=
  t.year < 10 ^ 4 ∧ t.month < 10 ^ 2 ∧ t.day < 10 ^ 2 ∧ t.hour < 10 ^ 2 ∧
  t.minute < 10 ^ 2 ∧ t.second < 10 ^ 2 ∧ t.micro < 10 ^ 6

/-- Generator state within one run: the clock tick of the previous call and
the collision counter used then. -/
structure GenState where
  last : Option Timestamp
  counter : ℕ
deriving Repr, DecidableEq

/-- The characters of a snapshot identifier: the timestamp in the format
`YYYY-MM-DD_HH:MM:SS.ffffff` (separators `-`, `-`, `_`, `:`, `:`, `.`),
followed by `.` and the six-digit collision counter. -/
def snapshotIdChars (t : Timestamp) (c : ℕ) : List Char :=
  padDigits 4 t.year ++
    (Char.ofNat 45 :: (padDigits 2 t.month ++
      (Char.ofNat 45 :: (padDigits 2 t.day ++
        (Char.ofNat 95 :: (padDigits 2 t.hour ++
          (Char.ofNat 58 :: (padDigits 2 t.minute ++
            (Char.ofNat 58 :: (padDigits 2 t.second ++
              (Char.ofNat 46 :: (padDigits 6 t.micro ++
                (Char.ofNat 46 :: padDigits 6 c)))))))))))))

/-- A snapshot identifier as a string. -/
def snapshotId (t : Timestamp) (c : ℕ) : String :=
  ⟨snapshotIdChars t c⟩

/-- The chronological sort key of an identifier: timestamp fields from most
to least significant, then the collision counter. -/
def chronoKey (t : Timestamp) (c : ℕ) : List ℕ :=
  [t.year, t.month, t.day, t.hour, t.minute, t.second, t.micro, c]

/-- Chronological order on identifiers: lexicographic on the sort keys. -/
def chronoBefore (t1 : Timestamp) (c1 : ℕ) (t2 : Timestamp) (c2 : ℕ) : Prop :=
  List.Lex (· < ·) (chronoKey t1 c1) (chronoKey t2 c2)

/-- Modelled from the spec: `FileUtil.get_time` is called by
`music_genre_calssification.py` (snapshot and model directory names) but is
missing from `file_utils.py`.  Per spec 4.3, `new_snapshot_id` returns a
string derived from the current wall-clock time at sub-second resolution,
formatted so that lexical order equals chronological order, and appends a
monotonic counter so that a second call within the same clock tick still
produces a distinct identifier. -/
def FileUtil.get_time (now : Timestamp) (st : GenState) : String × GenState :=
  let c := match st.last with
    | some t => if t = now then st.counter + 1 else 0
    | none => 0
  (snapshotId now c, ⟨some now, c⟩)

-- Helper lemma for `get_file_length`: the fold keeps the last index.
lemma enumFrom_foldl_last (l : List String) (n a : Nat) (h : l ≠ []) :
    (List.enumFrom n l).foldl (fun _ p => p.1) a = n + l.length - 1 := by
  induction l generalizing n a with
  | nil => exact absurd rfl h
  | cons x xs ih =>
    cases xs with
    | nil => simp [List.enumFrom]
    | cons y ys =>
      have h2 := ih (n + 1) a (by simp)
      simp only [List.enumFrom, List.foldl] at h2 ⊢
      rw [h2]
      simp only [List.length_cons]
      omega

/-- C10: `FileUtil.get_file_length` never returns 0: it returns 1 on an
empty (zero-line) file, and `n` on a file of `n ≥ 1` lines. -/
theorem get_file_length_pos_spec (lines : List String) :
    0 < FileUtil.get_file_length lines ∧
    (lines = [] → FileUtil.get_file_length lines = 1) ∧
    (lines ≠ [] → FileUtil.get_file_length lines = lines.length) := by
  refine ⟨Nat.succ_pos _, ?_, ?_⟩
  · intro h; subst h; rfl
  · intro h
    unfold FileUtil.get_file_length
    rw [List.enum, enumFrom_foldl_last lines 0 0 h]
    have : 1 ≤ lines.length := List.length_pos.mpr h
    omega

/-- Witness for C10: evaluates `get_file_length` on the empty file and a
three-line file. -/
theorem get_file_length_pos_spec_witness :
    FileUtil.get_file_length [] = 1 ∧
    FileUtil.get_file_length ["a", "b", "c"] = 3 := by
  refine ⟨(get_file_length_pos_spec []).2.1 rfl, ?_⟩
  have h := (get_file_length_pos_spec ["a", "b", "c"]).2.2 (by decide)
  simpa using h

/-- C9: `is_valid_file` is the exact boolean complement of `is_invalid_file`,
and `is_valid_directory` of `is_invalid_directory`, on every filesystem and path. -/
theorem valid_invalid_complement (fs : PyFS) (p : String) :
    FileUtil.is_valid_file fs p = !(FileUtil.is_invalid_file fs p) ∧
    FileUtil.is_valid_directory fs p = !(FileUtil.is_invalid_directory fs p) := by
  exact ⟨rfl, rfl⟩

/-- C8: the tabular I/O layer fails rather than proceeding on missing paths:
`csv2dataframe` fails when the file does not exist, and `get_folder_names`
fails on any invalid (non-existent) directory path. -/
theorem tabular_io_validates_existence (fs : PyFS) (p q : String)
    (hf : fs.isfile p = false) (hd : fs.isdir q = false) :
    FileUtil.csv2dataframe fs p = Except.error Err.notFoundError ∧
    FileUtil.get_folder_names fs q = Except.error Err.assertionError := by
  constructor
  · unfold FileUtil.csv2dataframe PyFS.read_csv
    unfold PyFS.isfile at hf
    cases h : fs.files.lookup p with
    | some t => rw [h] at hf; simp at hf
    | none => rfl
  · unfold FileUtil.get_folder_names FileUtil.is_invalid_directory
    rw [hd]
    rfl

/-- Witness for C8: the empty filesystem has neither a file `"x.csv"` nor a
directory `"d"`, and both operations fail there. -/
theorem tabular_io_validates_existence_witness :
    FileUtil.csv2dataframe ⟨[], []⟩ "x.csv" = Except.error Err.notFoundError ∧
    FileUtil.get_folder_names ⟨[], []⟩ "d" = Except.error Err.assertionError :=
  tabular_io_validates_existence ⟨[], []⟩ "x.csv" "d" rfl rfl

-- The two artifact paths of one snapshot directory are distinct.
lemma pathJoin_train_ne_test (d : String) :
    pathJoin d "train.csv" ≠ pathJoin d "test.csv" := by
  intro h
  have h2 : (d ++ "/" ++ "train.csv").data = (d ++ "/" ++ "test.csv").data :=
    congrArg String.data h
  have h3 : (d ++ "/").data ++ "train.csv".data = (d ++ "/").data ++ "test.csv".data := h2
  have h4 := List.append_cancel_left h3
  exact absurd h4 (by decide)

-- Writing a snapshot into an absent directory succeeds, creates the
-- directory listing, and stores the two recombined tables at the two
-- artifact paths.
lemma persist_snapshot_eq (fs : PyFS) (td : Table) (tl : List Int) (sd : Table)
    (sl : List Int) (ln d : String) (hdir : fs.isdir d = false) :
    ∃ fs1, DataProcess.persist_snapshot fs td tl sd sl ln d = Except.ok fs1 ∧
      fs1.dirs = (d, ["train.csv", "test.csv"]) :: fs.dirs.filter (fun kv => kv.1 ≠ d) ∧
      fs1.files.lookup (pathJoin d "train.csv") = some (DataProcess.insert_label td tl ln) ∧
      fs1.files.lookup (pathJoin d "test.csv") = some (DataProcess.insert_label sd sl ln) := by
  have key : DataProcess.persist_snapshot fs td tl sd sl ln d = Except.ok
      ({ dirs := (d, ["train.csv", "test.csv"]) :: fs.dirs.filter (fun kv => kv.1 ≠ d),
         files := (pathJoin d "test.csv", DataProcess.insert_label sd sl ln) ::
           ((pathJoin d "train.csv", DataProcess.insert_label td tl ln) ::
             fs.files.filter (fun kv => kv.1 ≠ pathJoin d "train.csv")).filter
             (fun kv => kv.1 ≠ pathJoin d "test.csv") } : PyFS) := by
    unfold DataProcess.persist_snapshot FileUtil.dataframe2csv
    rw [hdir]
    rfl
  refine ⟨_, key, rfl, ?_, ?_⟩
  · simp only [List.lookup]
    rw [beq_eq_false_iff_ne.mpr (pathJoin_train_ne_test d)]
    simp [List.filter, pathJoin_train_ne_test d, List.lookup]
  · simp [List.lookup]

/-- C4: `persist_snapshot` creates the target directory when absent; a second
call at the same (now non-empty) directory fails with `IOError` without
touching the first call's artifacts, so no snapshot is silently
overwritten. -/
theorem persist_snapshot_no_silent_overwrite (fs : PyFS) (td : Table)
    (tl : List Int) (sd : Table) (sl : List Int) (ln d : String)
    (hdir : fs.isdir d = false) :
    ∃ fs1, DataProcess.persist_snapshot fs td tl sd sl ln d = Except.ok fs1 ∧
      fs1.isdir d = true ∧
      (∀ td2 tl2 sd2 sl2 ln2,
        DataProcess.persist_snapshot fs1 td2 tl2 sd2 sl2 ln2 d
          = Except.error Err.ioError) ∧
      fs1.files.lookup (pathJoin d "train.csv") = some (DataProcess.insert_label td tl ln) ∧
      fs1.files.lookup (pathJoin d "test.csv") = some (DataProcess.insert_label sd sl ln) := by
  obtain ⟨fs1, hok, hdirs, htrain, htest⟩ := persist_snapshot_eq fs td tl sd sl ln d hdir
  have hisdir : fs1.isdir d = true := by
    unfold PyFS.isdir
    rw [hdirs]
    simp [List.lookup]
  refine ⟨fs1, hok, hisdir, ?_, htrain, htest⟩
  intro td2 tl2 sd2 sl2 ln2
  unfold DataProcess.persist_snapshot
  have hlist : fs1.listdir d = ["train.csv", "test.csv"] := by
    unfold PyFS.listdir
    rw [hdirs]
    simp [List.lookup]
  rw [hisdir, hlist]
  rfl

/-- Witness for C4: persisting into the empty filesystem at directory `"snap"`
succeeds, and re-persisting there fails with `IOError`. -/
theorem persist_snapshot_no_silent_overwrite_witness :
    (PyFS.isdir ⟨[], []⟩ "snap" = false) ∧
    ∃ fs1, DataProcess.persist_snapshot ⟨[], []⟩ ⟨["f"], [[1]]⟩ [0] ⟨["f"], [[2]]⟩ [1]
        "genre" "snap" = Except.ok fs1 ∧
      fs1.isdir "snap" = true ∧
      (∀ td2 tl2 sd2 sl2 ln2,
        DataProcess.persist_snapshot fs1 td2 tl2 sd2 sl2 ln2 "snap"
          = Except.error Err.ioError) ∧
      fs1.files.lookup (pathJoin "snap" "train.csv")
        = some (DataProcess.insert_label ⟨["f"], [[1]]⟩ [0] "genre") ∧
      fs1.files.lookup (pathJoin "snap" "test.csv")
        = some (DataProcess.insert_label ⟨["f"], [[2]]⟩ [1] "genre") :=
  ⟨rfl, persist_snapshot_no_silent_overwrite ⟨[], []⟩ ⟨["f"], [[1]]⟩ [0] ⟨["f"], [[2]]⟩ [1]
    "genre" "snap" rfl⟩

-- The train partition size never exceeds the row count.
lemma rnd_train_le (n p q : ℕ) (hp : 0 < p) (hpq : p < q) :
    rnd (n * (q - p)) q ≤ n := by
  unfold rnd
  have h2q : 0 < 2 * q := by omega
  have h1 : n * (q - p) ≤ n * q := Nat.mul_le_mul_left n (Nat.sub_le q p)
  have h2 : (n + 1) * (2 * q) = 2 * (n * q) + 2 * q := by ring
  have h3 : 2 * (n * (q - p)) + q < (n + 1) * (2 * q) := by omega
  have := (Nat.div_lt_iff_lt_mul h2q).mpr h3
  omega

-- The rounded train and test sizes jointly cover the rows, overshooting by
-- at most one.
lemma rnd_split_sum (n p q : ℕ) (hp : 0 < p) (hpq : p < q) :
    n ≤ rnd (n * (q - p)) q + rnd (n * p) q ∧
    rnd (n * (q - p)) q + rnd (n * p) q ≤ n + 1 := by
  unfold rnd
  have h2q : 0 < 2 * q := by omega
  have hAB : n * (q - p) + n * p = n * q := by
    rw [← Nat.mul_add]
    congr 1
    omega
  have hsum : (2 * (n * (q - p)) + q) + (2 * (n * p) + q) = (2 * q) * (n + 1) := by
    calc (2 * (n * (q - p)) + q) + (2 * (n * p) + q)
        = 2 * (n * (q - p) + n * p) + 2 * q := by ring
      _ = 2 * (n * q) + 2 * q := by rw [hAB]
      _ = (2 * q) * (n + 1) := by ring
  have hdiv : ((2 * (n * (q - p)) + q) + (2 * (n * p) + q)) / (2 * q) = n + 1 := by
    rw [hsum]
    exact Nat.mul_div_cancel_left _ h2q
  have hadd : ((2 * (n * (q - p)) + q) + (2 * (n * p) + q)) / (2 * q)
      = (2 * (n * (q - p)) + q) / (2 * q) + (2 * (n * p) + q) / (2 * q)
        + if 2 * q ≤ (2 * (n * (q - p)) + q) % (2 * q) + (2 * (n * p) + q) % (2 * q)
          then 1 else 0 := Nat.add_div h2q
  rw [hdiv] at hadd
  split_ifs at hadd <;> omega

-- On a valid test rate and a present label column, `split` returns the
-- explicit four structures built from the take/drop partition.
lemma split_eq (table : Table) (label_name : String) (p q : ℕ) (shuffle : Bool)
    (σ : List (List Int) → List (List Int)) (hp : 0 < p) (hpq : p < q)
    (hlab : label_name ∈ table.header) :
    DataProcess.split table label_name p q shuffle σ = Except.ok
      (⟨table.header.eraseIdx (table.header.indexOf label_name),
        eraseColRows (table.header.indexOf label_name)
          ((if shuffle then σ table.rows else table.rows).take
            (rnd ((if shuffle then σ table.rows else table.rows).length * (q - p)) q))⟩,
       ⟨table.header.eraseIdx (table.header.indexOf label_name),
        eraseColRows (table.header.indexOf label_name)
          ((if shuffle then σ table.rows else table.rows).drop
            (rnd ((if shuffle then σ table.rows else table.rows).length * (q - p)) q))⟩,
       colOf (table.header.indexOf label_name)
         ((if shuffle then σ table.rows else table.rows).take
           (rnd ((if shuffle then σ table.rows else table.rows).length * (q - p)) q)),
       colOf (table.header.indexOf label_name)
         ((if shuffle then σ table.rows else table.rows).drop
           (rnd ((if shuffle then σ table.rows else table.rows).length * (q - p)) q))) := by
  unfold DataProcess.split
  rw [if_pos ⟨hp, hpq⟩, if_pos hlab]

/-- C3: for every table and test rate `p/q` in `(0,1)`, the split produced by
`make_dataset` has train and test row counts summing to the total, aligned
label lengths, a test count within 1 of `round(total * test_rate)`, and the
two partitions are the disjoint take/drop segments of the same (shuffled)
row list, so no row appears in both. -/
theorem make_dataset_split_counts (fs : PyFS) (table : Table) (label_name : String)
    (p q : ℕ) (shuffle : Bool) (σ : List (List Int) → List (List Int))
    (directory : String) (hp : 0 < p) (hpq : p < q)
    (hlab : label_name ∈ table.header)
    (hσ : (σ table.rows).length = table.rows.length)
    (hdir : fs.isdir directory = false) :
    ∃ res fs1, DataProcess.make_dataset fs table label_name p q shuffle σ directory
        = Except.ok (res, fs1) ∧
      res.1.rows.length + res.2.1.rows.length = table.rows.length ∧
      res.2.2.1.length = res.1.rows.length ∧
      res.2.2.2.length = res.2.1.rows.length ∧
      res.2.1.rows.length ≤ rnd (table.rows.length * p) q + 1 ∧
      rnd (table.rows.length * p) q ≤ res.2.1.rows.length + 1 ∧
      ∃ tc, tc ≤ table.rows.length ∧
        res.1.rows = eraseColRows (table.header.indexOf label_name)
          ((if shuffle then σ table.rows else table.rows).take tc) ∧
        res.2.1.rows = eraseColRows (table.header.indexOf label_name)
          ((if shuffle then σ table.rows else table.rows).drop tc) ∧
        ((if shuffle then σ table.rows else table.rows).take tc)
            ++ ((if shuffle then σ table.rows else table.rows).drop tc)
          = (if shuffle then σ table.rows else table.rows) := by
  have hsplit := split_eq table label_name p q shuffle σ hp hpq hlab
  have hn : (if shuffle then σ table.rows else table.rows).length = table.rows.length := by
    cases shuffle <;> simp [hσ]
  set rows := if shuffle then σ table.rows else table.rows with hrows
  set n := table.rows.length with hdefn
  set tc := rnd (rows.length * (q - p)) q with htc
  have htcle : tc ≤ n := by
    rw [htc, hn]
    exact rnd_train_le n p q hp hpq
  obtain ⟨fs1, hok, _, _, _⟩ := persist_snapshot_eq fs
    ⟨table.header.eraseIdx (table.header.indexOf label_name),
      eraseColRows (table.header.indexOf label_name) (rows.take tc)⟩
    (colOf (table.header.indexOf label_name) (rows.take tc))
    ⟨table.header.eraseIdx (table.header.indexOf label_name),
      eraseColRows (table.header.indexOf label_name) (rows.drop tc)⟩
    (colOf (table.header.indexOf label_name) (rows.drop tc))
    label_name directory hdir
  refine ⟨(⟨table.header.eraseIdx (table.header.indexOf label_name),
      eraseColRows (table.header.indexOf label_name) (rows.take tc)⟩,
    ⟨table.header.eraseIdx (table.header.indexOf label_name),
      eraseColRows (table.header.indexOf label_name) (rows.drop tc)⟩,
    colOf (table.header.indexOf label_name) (rows.take tc),
    colOf (table.header.indexOf label_name) (rows.drop tc)),
    fs1, ?_, ?_, ?_, ?_, ?_, ?_, tc, htcle, rfl, rfl, List.take_append_drop tc rows⟩
  · unfold DataProcess.make_dataset
    rw [hsplit]
    simp only [hok]
  · simp only [eraseColRows, List.length_map, List.length_take, List.length_drop, hn]
    omega
  · simp [eraseColRows, colOf]
  · simp [eraseColRows, colOf]
  · have hs := rnd_split_sum n p q hp hpq
    have hceq : rnd (rows.length * (q - p)) q = rnd (n * (q - p)) q := by rw [hn]
    simp only [eraseColRows, List.length_map, List.length_drop, hn]
    omega
  · have hs := rnd_split_sum n p q hp hpq
    have hceq : rnd (rows.length * (q - p)) q = rnd (n * (q - p)) q := by rw [hn]
    simp only [eraseColRows, List.length_map, List.length_drop, hn]
    omega

/-- Witness for C3: a four-row table split with `test_rate = 1/4`,
`shuffle = false`, into the empty filesystem. -/
theorem make_dataset_split_counts_witness :
    (0 < 1 ∧ 1 < 4 ∧ "genre" ∈ (["f", "genre"] : List String) ∧
      (id ([[1, 0], [2, 1], [3, 0], [4, 1]] : List (List Int))).length
        = ([[1, 0], [2, 1], [3, 0], [4, 1]] : List (List Int)).length ∧
      PyFS.isdir ⟨[], []⟩ "snap" = false) ∧
    ∃ res fs1,
      DataProcess.make_dataset ⟨[], []⟩ ⟨["f", "genre"], [[1, 0], [2, 1], [3, 0], [4, 1]]⟩
          "genre" 1 4 false id "snap" = Except.ok (res, fs1) ∧
      res.1.rows.length + res.2.1.rows.length
        = (Table.rows ⟨["f", "genre"], [[1, 0], [2, 1], [3, 0], [4, 1]]⟩).length ∧
      res.2.2.1.length = res.1.rows.length ∧
      res.2.2.2.length = res.2.1.rows.length ∧
      res.2.1.rows.length ≤ rnd ((Table.rows ⟨["f", "genre"],
        [[1, 0], [2, 1], [3, 0], [4, 1]]⟩).length * 1) 4 + 1 ∧
      rnd ((Table.rows ⟨["f", "genre"], [[1, 0], [2, 1], [3, 0], [4, 1]]⟩).length * 1) 4
        ≤ res.2.1.rows.length + 1 ∧
      ∃ tc, tc ≤ (Table.rows ⟨["f", "genre"], [[1, 0], [2, 1], [3, 0], [4, 1]]⟩).length ∧
        res.1.rows = eraseColRows ((["f", "genre"] : List String).indexOf "genre")
          ((if false then id (Table.rows ⟨["f", "genre"], [[1, 0], [2, 1], [3, 0], [4, 1]]⟩)
            else Table.rows ⟨["f", "genre"], [[1, 0], [2, 1], [3, 0], [4, 1]]⟩).take tc) ∧
        res.2.1.rows = eraseColRows ((["f", "genre"] : List String).indexOf "genre")
          ((if false then id (Table.rows ⟨["f", "genre"], [[1, 0], [2, 1], [3, 0], [4, 1]]⟩)
            else Table.rows ⟨["f", "genre"], [[1, 0], [2, 1], [3, 0], [4, 1]]⟩).drop tc) ∧
        ((if false then id (Table.rows ⟨["f", "genre"], [[1, 0], [2, 1], [3, 0], [4, 1]]⟩)
            else Table.rows ⟨["f", "genre"], [[1, 0], [2, 1], [3, 0], [4, 1]]⟩).take tc)
          ++ ((if false then id (Table.rows ⟨["f", "genre"], [[1, 0], [2, 1], [3, 0], [4, 1]]⟩)
            else Table.rows ⟨["f", "genre"], [[1, 0], [2, 1], [3, 0], [4, 1]]⟩).drop tc)
          = (if false then id (Table.rows ⟨["f", "genre"], [[1, 0], [2, 1], [3, 0], [4, 1]]⟩)
            else Table.rows ⟨["f", "genre"], [[1, 0], [2, 1], [3, 0], [4, 1]]⟩) :=
  ⟨⟨Nat.one_pos, by omega, by decide, rfl, rfl⟩,
    make_dataset_split_counts ⟨[], []⟩ ⟨["f", "genre"], [[1, 0], [2, 1], [3, 0], [4, 1]]⟩
      "genre" 1 4 false id "snap" Nat.one_pos (by omega) (by decide) rfl rfl⟩

-- Erasing the appended final element of a row recovers the row.
lemma eraseIdx_append_singleton {α : Type} (r : List α) (v : α) :
    (r ++ [v]).eraseIdx r.length = r := by
  induction r with
  | nil => rfl
  | cons x xs ih => simp [List.eraseIdx, ih]

-- Reading the appended final element of a row recovers the value.
lemma getD_append_singleton {α : Type} (r : List α) (v d : α) :
    (r ++ [v]).getD r.length d = v := by
  induction r with
  | nil => rfl
  | cons x xs ih => simp [ih]

-- Extracting the label column out of a recombined table recovers the
-- original (data, label) pair.
lemma extract_insert_label (data : Table) (label : List Int) (ln : String)
    (h1 : ln ∉ data.header)
    (h2 : ∀ r ∈ data.rows, r.length = data.header.length)
    (h3 : data.rows.length = label.length) :
    DataProcess.extract_label (DataProcess.insert_label data label ln) ln
      = Except.ok (data, label) := by
  have hmem : ln ∈ data.header ++ [ln] := by simp
  have hidx : (data.header ++ [ln]).indexOf ln = data.header.length := by
    rw [List.indexOf_append_of_not_mem h1]
    simp
  simp only [DataProcess.extract_label, DataProcess.insert_label, hmem, if_true, hidx]
  congr 1
  refine Prod.ext ?_ ?_
  · refine Table.ext ?_ ?_
    · exact eraseIdx_append_singleton data.header ln
    · show eraseColRows data.header.length
          ((data.rows.zip label).map (fun pr => pr.1 ++ [pr.2])) = data.rows
      unfold eraseColRows
      rw [List.map_map]
      have hpoint : ∀ pr ∈ data.rows.zip label,
          ((fun r => r.eraseIdx data.header.length) ∘ fun pr => pr.1 ++ [pr.2]) pr = pr.1 := by
        intro pr hpr
        obtain ⟨hm1, _⟩ := List.of_mem_zip hpr
        have := h2 pr.1 hm1
        simp only [Function.comp]
        rw [← this]
        exact eraseIdx_append_singleton pr.1 pr.2
      rw [List.map_congr_left hpoint]
      exact List.map_fst_zip data.rows label (le_of_eq h3)
  · show colOf data.header.length
        ((data.rows.zip label).map (fun pr => pr.1 ++ [pr.2])) = label
    unfold colOf
    rw [List.map_map]
    have hpoint : ∀ pr ∈ data.rows.zip label,
        ((fun r => r.getD data.header.length 0) ∘ fun pr => pr.1 ++ [pr.2]) pr = pr.2 := by
      intro pr hpr
      obtain ⟨hm1, _⟩ := List.of_mem_zip hpr
      have := h2 pr.1 hm1
      simp only [Function.comp]
      rw [← this]
      exact getD_append_singleton pr.1 pr.2 0
    rw [List.map_congr_left hpoint]
    exact List.map_snd_zip data.rows label (ge_of_eq h3)

/-- C1: splitting and persisting a snapshot via `make_dataset`, then reloading
that snapshot directory via `read_dataset`, returns train/test data and label
structures identical to the four structures returned before persistence. -/
theorem snapshot_round_trip (fs : PyFS) (table : Table) (label_name : String)
    (p q : ℕ) (shuffle : Bool) (σ : List (List Int) → List (List Int))
    (directory : String) (hp : 0 < p) (hpq : p < q)
    (hcount : table.header.count label_name = 1)
    (hrect : ∀ r ∈ table.rows, r.length = table.header.length)
    (hσ : ∀ r ∈ σ table.rows, r ∈ table.rows)
    (hdir : fs.isdir directory = false) :
    ∃ res fs1, DataProcess.make_dataset fs table label_name p q shuffle σ directory
        = Except.ok (res, fs1) ∧
      DataProcess.read_dataset fs1 directory label_name = Except.ok res := by
  have hlab : label_name ∈ table.header := by
    by_contra h
    rw [List.count_eq_zero_of_not_mem h] at hcount
    exact absurd hcount (by decide)
  have hi : table.header.indexOf label_name < table.header.length :=
    List.indexOf_lt_length.mpr hlab
  have hnotin : label_name ∉ table.header.eraseIdx (table.header.indexOf label_name) := by
    rw [List.eraseIdx_indexOf_eq_erase]
    refine List.count_eq_zero.mp ?_
    rw [List.count_erase_self, hcount]
  have hsplit := split_eq table label_name p q shuffle σ hp hpq hlab
  have hrowsmem : ∀ r ∈ (if shuffle then σ table.rows else table.rows),
      r.length = table.header.length := by
    cases shuffle
    · simpa using hrect
    · intro r hr
      exact hrect r (hσ r (by simpa using hr))
  set i := table.header.indexOf label_name with hidef
  set rows := if shuffle then σ table.rows else table.rows with hrows
  set tc := rnd (rows.length * (q - p)) q with htc
  set td : Table := ⟨table.header.eraseIdx i, eraseColRows i (rows.take tc)⟩ with htd
  set sd : Table := ⟨table.header.eraseIdx i, eraseColRows i (rows.drop tc)⟩ with hsd
  set tl := colOf i (rows.take tc) with htl
  set sl := colOf i (rows.drop tc) with hsl
  obtain ⟨fs1, hok, hdirs, htr, hte⟩ :=
    persist_snapshot_eq fs td tl sd sl label_name directory hdir
  have hextr : DataProcess.extract_label (DataProcess.insert_label td tl label_name)
      label_name = Except.ok (td, tl) := by
    refine extract_insert_label td tl label_name hnotin ?_ ?_
    · intro r hr
      simp only [htd, eraseColRows, List.mem_map] at hr
      obtain ⟨r0, hr0, hr0e⟩ := hr
      have hlen := hrowsmem r0 (List.mem_of_mem_take hr0)
      rw [← hr0e]
      simp only [htd]
      rw [List.length_eraseIdx_of_lt (by rw [hlen]; exact hi),
        List.length_eraseIdx_of_lt hi, hlen]
    · simp [htd, htl, eraseColRows, colOf]
  have hexts : DataProcess.extract_label (DataProcess.insert_label sd sl label_name)
      label_name = Except.ok (sd, sl) := by
    refine extract_insert_label sd sl label_name hnotin ?_ ?_
    · intro r hr
      simp only [hsd, eraseColRows, List.mem_map] at hr
      obtain ⟨r0, hr0, hr0e⟩ := hr
      have hlen := hrowsmem r0 (List.mem_of_mem_drop hr0)
      rw [← hr0e]
      simp only [hsd]
      rw [List.length_eraseIdx_of_lt (by rw [hlen]; exact hi),
        List.length_eraseIdx_of_lt hi, hlen]
    · simp [hsd, hsl, eraseColRows, colOf]
  refine ⟨(td, sd, tl, sl), fs1, ?_, ?_⟩
  · unfold DataProcess.make_dataset
    rw [hsplit]
    simp only [hok]
  · unfold DataProcess.read_dataset FileUtil.csv2dataframe PyFS.read_csv
    rw [htr, hte]
    simp only [hextr, hexts]

/-- Witness for C1: a concrete four-row table with label column `"genre"`,
`test_rate = 1/4`, `shuffle = false`, persisted into the empty filesystem at
`"rt"` and reloaded. -/
theorem snapshot_round_trip_witness :
    ((["f", "genre"] : List String).count "genre" = 1 ∧
      PyFS.isdir ⟨[], []⟩ "rt" = false) ∧
    ∃ res fs1,
      DataProcess.make_dataset ⟨[], []⟩ ⟨["f", "genre"], [[1, 0], [2, 1], [3, 0], [4, 1]]⟩
          "genre" 1 4 false id "rt" = Except.ok (res, fs1) ∧
      DataProcess.read_dataset fs1 "rt" "genre" = Except.ok res :=
  ⟨⟨by decide, rfl⟩,
    snapshot_round_trip ⟨[], []⟩ ⟨["f", "genre"], [[1, 0], [2, 1], [3, 0], [4, 1]]⟩
      "genre" 1 4 false id "rt" (by decide) (by decide) (by decide) (by decide)
      (fun r h => h) rfl⟩

-- Setting the freshly appended final cell replaces only that cell.
lemma set_append_singleton {α : Type} (l : List α) (v x : α) :
    (l ++ [v]).set l.length x = l ++ [x] := by
  induction l with
  | nil => rfl
  | cons a as ih => simp [List.set, ih]

-- A cell below the appended region is read unchanged.
lemma getD_append_left {α : Type} (l l2 : List α) (i : ℕ) (d : α)
    (h : i < l.length) : (l ++ l2).getD i d = l.getD i d := by
  simp [List.getD, List.getElem?_append_left h]

/-- C7: `data_process` is side-effect-free with respect to its input
dataframe: after the call the input cell is unchanged, and the processed
result (normalization then label factorization applied) lives in a fresh
cell distinct from the input handle. -/
theorem data_process_frame (normF factF : Table → Table) (store : List Table)
    (i : ℕ) (hi : i < store.length) :
    (MusicGenreClassification.data_process normF factF store i).1.getD i default
      = store.getD i default ∧
    (MusicGenreClassification.data_process normF factF store i).2 ≠ i ∧
    (MusicGenreClassification.data_process normF factF store i).1.getD
        (MusicGenreClassification.data_process normF factF store i).2 default
      = factF (normF (store.getD i default)) := by
  have h1 : (store ++ [store.getD i default]).getD store.length default
      = store.getD i default := getD_append_singleton store (store.getD i default) default
  have hs1 : (store ++ [store.getD i default]).set store.length
        (normF ((store ++ [store.getD i default]).getD store.length default))
      = store ++ [normF (store.getD i default)] := by
    rw [h1]
    exact set_append_singleton store (store.getD i default) (normF (store.getD i default))
  have h2 : (store ++ [normF (store.getD i default)]).getD store.length default
      = normF (store.getD i default) :=
    getD_append_singleton store (normF (store.getD i default)) default
  have hs2 : (store ++ [normF (store.getD i default)]).set store.length
        (factF ((store ++ [normF (store.getD i default)]).getD store.length default))
      = store ++ [factF (normF (store.getD i default))] := by
    rw [h2]
    exact set_append_singleton store (normF (store.getD i default))
      (factF (normF (store.getD i default)))
  simp only [MusicGenreClassification.data_process, dfCopy, applyAt, hs1, hs2]
  refine ⟨?_, ?_, ?_⟩
  · exact getD_append_left store [factF (normF (store.getD i default))] i default hi
  · omega
  · exact getD_append_singleton store (factF (normF (store.getD i default))) default

/-- Witness for C7: a two-cell store, processing the dataframe in cell 0. -/
theorem data_process_frame_witness :
    (0 < ([⟨["a"], [[5]]⟩, ⟨["b"], [[6]]⟩] : List Table).length) ∧
    ((MusicGenreClassification.data_process (fun t => t) (fun t => ⟨t.header, []⟩)
        [⟨["a"], [[5]]⟩, ⟨["b"], [[6]]⟩] 0).1.getD 0 default
      = ([⟨["a"], [[5]]⟩, ⟨["b"], [[6]]⟩] : List Table).getD 0 default ∧
    (MusicGenreClassification.data_process (fun t => t) (fun t => ⟨t.header, []⟩)
        [⟨["a"], [[5]]⟩, ⟨["b"], [[6]]⟩] 0).2 ≠ 0 ∧
    (MusicGenreClassification.data_process (fun t => t) (fun t => ⟨t.header, []⟩)
        [⟨["a"], [[5]]⟩, ⟨["b"], [[6]]⟩] 0).1.getD
        (MusicGenreClassification.data_process (fun t => t) (fun t => ⟨t.header, []⟩)
          [⟨["a"], [[5]]⟩, ⟨["b"], [[6]]⟩] 0).2 default
      = (fun t => ⟨t.header, []⟩) ((fun t => t)
          (([⟨["a"], [[5]]⟩, ⟨["b"], [[6]]⟩] : List Table).getD 0 default))) :=
  ⟨by decide, data_process_frame (fun t => t) (fun t => ⟨t.header, []⟩)
    [⟨["a"], [[5]]⟩, ⟨["b"], [[6]]⟩] 0 (by decide)⟩

-- Which steps the feature stage executes, by run mode.
lemma featureStage_ops {Model : Type} (fe : Bool) (c : Collab Model) :
    (Op.extractFeatures ∈ (featureStage fe c).1 ↔ fe = true) ∧
    (Op.readDataset ∈ (featureStage fe c).1 ↔ fe = false) ∧
    (Op.dataProcess ∈ (featureStage fe c).1 → fe = true) ∧
    Op.testModel ∉ (featureStage fe c).1 := by
  cases fe
  · unfold featureStage
    cases c.read_dataset <;> simp
  · unfold featureStage
    cases c.feature_extraction with
    | error e => simp
    | ok t =>
      cases h2 : c.data_process t with
      | error e => simp [h2]
      | ok t2 =>
        cases h3 : c.make_dataset t2 with
        | error e => simp [h2, h3]
        | ok r => simp [h2, h3]

-- The model stage executes exactly one of the two model-source steps.
lemma modelStage_ops {Model : Type} (tr : Bool) (c : Collab Model) (r : SplitResult) :
    (modelStage tr c r).1 = [Op.trainModel] ∨ (modelStage tr c r).1 = [Op.loadModel] := by
  cases tr
  · unfold modelStage
    cases c.load_model <;> simp
  · unfold modelStage
    cases c.training r.1 r.2.2.1 <;> simp

-- The full trace extends the feature-stage trace only with model/test steps.
lemma mainRun_trace {Model : Type} (fe tr : Bool) (c : Collab Model) :
    ∃ rest, (mainRun fe tr c).1 = (featureStage fe c).1 ++ rest ∧
      Op.extractFeatures ∉ rest ∧ Op.readDataset ∉ rest ∧ Op.dataProcess ∉ rest := by
  rcases hfs : featureStage fe c with ⟨ops1, res1⟩
  unfold mainRun
  rw [hfs]
  cases res1 with
  | error e => exact ⟨[], by simp, by simp, by simp, by simp⟩
  | ok r =>
    rcases hms : modelStage tr c r with ⟨ops2, res2⟩
    have hops2 : ops2 = [Op.trainModel] ∨ ops2 = [Op.loadModel] := by
      rcases modelStage_ops tr c r with h | h <;> rw [hms] at h <;> simp at h
      · exact Or.inl h
      · exact Or.inr h
    cases res2 with
    | error e =>
      refine ⟨ops2, by simp [hms], ?_, ?_, ?_⟩ <;>
        rcases hops2 with h | h <;> subst h <;> decide
    | ok m =>
      cases ht : c.test m r.2.1 r.2.2.2 with
      | error e =>
        refine ⟨ops2 ++ [Op.testModel], by simp [hms, ht], ?_, ?_, ?_⟩ <;>
          rcases hops2 with h | h <;> subst h <;> decide
      | ok acc =>
        refine ⟨ops2 ++ [Op.testModel], by simp [hms, ht], ?_, ?_, ?_⟩ <;>
          rcases hops2 with h | h <;> subst h <;> decide

/-- C5: in every run exactly one feature source is used — the fresh path
executes feature extraction (and only it executes the normalize-then-encode
`data_process` step), the reuse path executes `read_dataset` only, and the
loaded tables never get the processing step. -/
theorem run_mode_exclusive_sources {Model : Type} (fe tr : Bool) (c : Collab Model) :
    (Op.extractFeatures ∈ (mainRun fe tr c).1 ↔ fe = true) ∧
    (Op.readDataset ∈ (mainRun fe tr c).1 ↔ fe = false) ∧
    (Op.dataProcess ∈ (mainRun fe tr c).1 → fe = true) := by
  obtain ⟨rest, htr, hne, hnr, hnd⟩ := mainRun_trace fe tr c
  obtain ⟨hext, hread, hproc, _⟩ := featureStage_ops fe c
  rw [htr]
  refine ⟨?_, ?_, ?_⟩
  · rw [List.mem_append]
    constructor
    · intro h
      rcases h with h | h
      · exact hext.mp h
      · exact absurd h hne
    · intro h
      exact Or.inl (hext.mpr h)
  · rw [List.mem_append]
    constructor
    · intro h
      rcases h with h | h
      · exact hread.mp h
      · exact absurd h hnr
    · intro h
      exact Or.inl (hread.mpr h)
  · rw [List.mem_append]
    intro h
    rcases h with h | h
    · exact hproc h
    · exact absurd h hnd

/-- Witness for C5: evaluates the run-mode property on the reuse path
(`feature_extraction = False`, `training = True`) with a concrete
collaborator. -/
theorem run_mode_exclusive_sources_witness :
    (Op.extractFeatures ∈ (mainRun false true
        (⟨Except.ok ⟨[], []⟩, fun _ => Except.ok ⟨[], []⟩,
          fun _ => Except.ok (⟨[], []⟩, ⟨[], []⟩, [], []),
          Except.ok (⟨[], []⟩, ⟨[], []⟩, [], []),
          fun _ _ => Except.ok (), Except.ok (),
          fun _ _ _ => Except.ok 1⟩ : Collab Unit)).1 ↔ false = true) ∧
    (Op.readDataset ∈ (mainRun false true
        (⟨Except.ok ⟨[], []⟩, fun _ => Except.ok ⟨[], []⟩,
          fun _ => Except.ok (⟨[], []⟩, ⟨[], []⟩, [], []),
          Except.ok (⟨[], []⟩, ⟨[], []⟩, [], []),
          fun _ _ => Except.ok (), Except.ok (),
          fun _ _ _ => Except.ok 1⟩ : Collab Unit)).1 ↔ false = false) ∧
    (Op.dataProcess ∈ (mainRun false true
        (⟨Except.ok ⟨[], []⟩, fun _ => Except.ok ⟨[], []⟩,
          fun _ => Except.ok (⟨[], []⟩, ⟨[], []⟩, [], []),
          Except.ok (⟨[], []⟩, ⟨[], []⟩, [], []),
          fun _ _ => Except.ok (), Except.ok (),
          fun _ _ _ => Except.ok 1⟩ : Collab Unit)).1 → false = true) :=
  run_mode_exclusive_sources false true
    ⟨Except.ok ⟨[], []⟩, fun _ => Except.ok ⟨[], []⟩,
      fun _ => Except.ok (⟨[], []⟩, ⟨[], []⟩, [], []),
      Except.ok (⟨[], []⟩, ⟨[], []⟩, [], []),
      fun _ _ => Except.ok (), Except.ok (),
      fun _ _ _ => Except.ok 1⟩

/-- C6: the Orchestrator never catches an error and continues — a failure of
any step upstream of the test (extraction, processing, split/persist via the
feature stage; training or loading via the model stage) makes the run end
with exactly that error, the test step is never reached, and an accuracy
value exists only when the classifier's own test call returned it. -/
theorem orchestrator_aborts_on_failure {Model : Type} (fe tr : Bool)
    (c : Collab Model) :
    (∀ e, (featureStage fe c).2 = Except.error e →
      mainRun fe tr c = ((featureStage fe c).1, Except.error e) ∧
      Op.testModel ∉ (mainRun fe tr c).1) ∧
    (∀ r e, (featureStage fe c).2 = Except.ok r →
      (modelStage tr c r).2 = Except.error e →
      mainRun fe tr c = ((featureStage fe c).1 ++ (modelStage tr c r).1,
        Except.error e) ∧
      Op.testModel ∉ (mainRun fe tr c).1) ∧
    (∀ a, (mainRun fe tr c).2 = Except.ok a →
      ∃ (m : Model) (r : SplitResult), c.test m r.2.1 r.2.2.2 = Except.ok a) := by
  rcases hfs : featureStage fe c with ⟨ops1, res1⟩
  have hnt1 : Op.testModel ∉ ops1 := by
    have h := (featureStage_ops fe c).2.2.2
    rw [hfs] at h
    exact h
  refine ⟨?_, ?_, ?_⟩
  · intro e he
    simp at he
    subst he
    have hmr : mainRun fe tr c = (ops1, Except.error e) := by
      unfold mainRun
      rw [hfs]
    refine ⟨by rw [hmr], ?_⟩
    rw [hmr]
    exact hnt1
  · intro r e hr he
    simp at hr
    subst hr
    rcases hms : modelStage tr c r with ⟨ops2, res2⟩
    rw [hms] at he
    simp at he
    subst he
    have hnt2 : Op.testModel ∉ ops2 := by
      rcases modelStage_ops tr c r with h | h <;> rw [hms] at h <;> simp at h <;>
        subst h <;> decide
    have hmr : mainRun fe tr c = (ops1 ++ ops2, Except.error e) := by
      unfold mainRun
      rw [hfs]
      simp [hms]
    refine ⟨by rw [hmr], ?_⟩
    rw [hmr]
    intro hmem
    rcases List.mem_append.mp hmem with h | h
    · exact hnt1 h
    · exact hnt2 h
  · intro a ha
    unfold mainRun at ha
    rw [hfs] at ha
    cases res1 with
    | error e => simp at ha
    | ok r =>
      have ha2 : (match modelStage tr c r with
          | (ops2, Except.error e) => (ops1 ++ ops2, Except.error e)
          | (ops2, Except.ok m) =>
            match c.test m r.2.1 r.2.2.2 with
            | Except.error e => (ops1 ++ ops2 ++ [Op.testModel], Except.error e)
            | Except.ok acc => (ops1 ++ ops2 ++ [Op.testModel], Except.ok acc)).2
          = Except.ok a := ha
      rcases hms : modelStage tr c r with ⟨ops2, res2⟩
      rw [hms] at ha2
      cases res2 with
      | error e => simp at ha2
      | ok m =>
        have ha3 : (match c.test m r.2.1 r.2.2.2 with
            | Except.error e => (ops1 ++ ops2 ++ [Op.testModel], Except.error e)
            | Except.ok acc => (ops1 ++ ops2 ++ [Op.testModel], Except.ok acc)).2
            = Except.ok a := ha2
        cases ht : c.test m r.2.1 r.2.2.2 with
        | error e =>
          rw [ht] at ha3
          simp at ha3
        | ok acc =>
          rw [ht] at ha3
          simp at ha3
          exact ⟨m, r, by rw [ht, ha3]⟩

/-- Witness for C6: a collaborator whose feature extraction raises; the run
ends with that error and the test step is never reached. -/
theorem orchestrator_aborts_on_failure_witness :
    (featureStage true
        (⟨Except.error Err.notFoundError, fun _ => Except.ok ⟨[], []⟩,
          fun _ => Except.ok (⟨[], []⟩, ⟨[], []⟩, [], []),
          Except.ok (⟨[], []⟩, ⟨[], []⟩, [], []),
          fun _ _ => Except.ok (), Except.ok (),
          fun _ _ _ => Except.ok 1⟩ : Collab Unit)).2
      = Except.error Err.notFoundError ∧
    (mainRun true true
        (⟨Except.error Err.notFoundError, fun _ => Except.ok ⟨[], []⟩,
          fun _ => Except.ok (⟨[], []⟩, ⟨[], []⟩, [], []),
          Except.ok (⟨[], []⟩, ⟨[], []⟩, [], []),
          fun _ _ => Except.ok (), Except.ok (),
          fun _ _ _ => Except.ok 1⟩ : Collab Unit)
      = ((featureStage true
          (⟨Except.error Err.notFoundError, fun _ => Except.ok ⟨[], []⟩,
            fun _ => Except.ok (⟨[], []⟩, ⟨[], []⟩, [], []),
            Except.ok (⟨[], []⟩, ⟨[], []⟩, [], []),
            fun _ _ => Except.ok (), Except.ok (),
            fun _ _ _ => Except.ok 1⟩ : Collab Unit)).1,
        Except.error Err.notFoundError) ∧
      Op.testModel ∉ (mainRun true true
        (⟨Except.error Err.notFoundError, fun _ => Except.ok ⟨[], []⟩,
          fun _ => Except.ok (⟨[], []⟩, ⟨[], []⟩, [], []),
          Except.ok (⟨[], []⟩, ⟨[], []⟩, [], []),
          fun _ _ => Except.ok (), Except.ok (),
          fun _ _ _ => Except.ok 1⟩ : Collab Unit)).1) :=
  ⟨rfl, (orchestrator_aborts_on_failure true true
    ⟨Except.error Err.notFoundError, fun _ => Except.ok ⟨[], []⟩,
      fun _ => Except.ok (⟨[], []⟩, ⟨[], []⟩, [], []),
      Except.ok (⟨[], []⟩, ⟨[], []⟩, [], []),
      fun _ _ => Except.ok (), Except.ok (),
      fun _ _ _ => Except.ok 1⟩).1 Err.notFoundError rfl⟩

-- Digit-string and lexicographic-order lemmas for the snapshot identifier.
lemma padDigits_length (w n : ℕ) : (padDigits w n).length = w := by
  induction w generalizing n with
  | zero => rfl
  | succ w ih => simp [padDigits, ih]

lemma digitChar_lt_iff (d e : ℕ) (hd : d < 10) (he : e < 10) :
    Char.ofNat (48 + d) < Char.ofNat (48 + e) ↔ d < e := by
  interval_cases d <;> interval_cases e <;> decide

lemma digitChar_inj_iff (d e : ℕ) (hd : d < 10) (he : e < 10) :
    Char.ofNat (48 + d) = Char.ofNat (48 + e) ↔ d = e := by
  interval_cases d <;> interval_cases e <;> decide

lemma lex_cons_iff {α : Type} (r : α → α → Prop) (x y : α) (xs ys : List α) :
    List.Lex r (x :: xs) (y :: ys) ↔ r x y ∨ (x = y ∧ List.Lex r xs ys) := by
  constructor
  · intro h
    cases h with
    | rel h => exact Or.inl h
    | cons h => exact Or.inr ⟨rfl, h⟩
  · intro h
    rcases h with h | ⟨rfl, h⟩
    · exact List.Lex.rel h
    · exact List.Lex.cons h

lemma div_mod_order_iff (P a b : ℕ) (hP : 0 < P) :
    a < b ↔ (a / P < b / P ∨ (a / P = b / P ∧ a % P < b % P)) := by
  have h1 := Nat.div_add_mod a P
  have h2 := Nat.div_add_mod b P
  have hr1 : a % P < P := Nat.mod_lt _ hP
  have hr2 : b % P < P := Nat.mod_lt _ hP
  rcases Nat.lt_trichotomy (a / P) (b / P) with h | h | h
  · have hm : P * (a / P) + P ≤ P * (b / P) := by
      have := Nat.mul_le_mul_left P (Nat.succ_le_of_lt h)
      calc P * (a / P) + P = P * (a / P + 1) := by ring
        _ ≤ P * (b / P) := this
    omega
  · rw [h] at h1
    omega
  · have hm : P * (b / P) + P ≤ P * (a / P) := by
      have := Nat.mul_le_mul_left P (Nat.succ_le_of_lt h)
      calc P * (b / P) + P = P * (b / P + 1) := by ring
        _ ≤ P * (a / P) := this
    omega

lemma padDigits_lt_iff (w a b : ℕ) (ha : a < 10 ^ w) (hb : b < 10 ^ w) :
    List.Lex (· < ·) (padDigits w a) (padDigits w b) ↔ a < b := by
  induction w generalizing a b with
  | zero =>
    interval_cases a
    interval_cases b
    simp only [padDigits]
    constructor
    · intro h
      cases h
    · intro h
      exact absurd h (by omega)
  | succ w ih =>
    have hP : (0 : ℕ) < 10 ^ w := Nat.pos_pow_of_pos w (by omega)
    have hda : a / 10 ^ w < 10 := by
      rw [Nat.div_lt_iff_lt_mul hP]
      calc a < 10 ^ (w + 1) := ha
        _ = 10 * 10 ^ w := by ring
    have hdb : b / 10 ^ w < 10 := by
      rw [Nat.div_lt_iff_lt_mul hP]
      calc b < 10 ^ (w + 1) := hb
        _ = 10 * 10 ^ w := by ring
    rw [padDigits, padDigits, lex_cons_iff,
      digitChar_lt_iff _ _ hda hdb, digitChar_inj_iff _ _ hda hdb,
      ih _ _ (Nat.mod_lt _ hP) (Nat.mod_lt _ hP),
      ← div_mod_order_iff (10 ^ w) a b hP]

lemma lex_irrefl {α : Type} (r : α → α → Prop) (hr : ∀ x, ¬ r x x) :
    ∀ l : List α, ¬ List.Lex r l l := by
  intro l
  induction l with
  | nil =>
    intro h
    cases h
  | cons x xs ih =>
    intro h
    cases h with
    | rel h => exact hr x h
    | cons h => exact ih h

lemma padDigits_inj_iff (w a b : ℕ) (ha : a < 10 ^ w) (hb : b < 10 ^ w) :
    padDigits w a = padDigits w b ↔ a = b := by
  constructor
  · intro h
    rcases Nat.lt_trichotomy a b with hlt | he | hlt
    · have := (padDigits_lt_iff w a b ha hb).mpr hlt
      rw [h] at this
      exact absurd this (lex_irrefl _ (fun x => lt_irrefl x) _)
    · exact he
    · have := (padDigits_lt_iff w b a hb ha).mpr hlt
      rw [h] at this
      exact absurd this (lex_irrefl _ (fun x => lt_irrefl x) _)
  · intro h
    rw [h]

lemma lex_append_iff {α : Type} (r : α → α → Prop) :
    ∀ (xs ys us vs : List α), xs.length = ys.length →
      (List.Lex r (xs ++ us) (ys ++ vs) ↔
        List.Lex r xs ys ∨ (xs = ys ∧ List.Lex r us vs)) := by
  intro xs
  induction xs with
  | nil =>
    intro ys us vs h
    cases ys with
    | nil =>
      simp only [List.nil_append, List.nil_eq, true_and]
      constructor
      · intro h2
        exact Or.inr h2
      · intro h2
        rcases h2 with h2 | h2
        · cases h2
        · exact h2
    | cons y ys => simp at h
  | cons x xs ih =>
    intro ys us vs h
    cases ys with
    | nil => simp at h
    | cons y ys =>
      simp only [List.cons_append, lex_cons_iff, List.cons.injEq]
      rw [ih ys us vs (by simpa using h)]
      constructor
      · rintro (h2 | ⟨rfl, h2 | ⟨rfl, h2⟩⟩)
        · exact Or.inl (Or.inl h2)
        · exact Or.inl (Or.inr ⟨rfl, h2⟩)
        · exact Or.inr ⟨⟨rfl, rfl⟩, h2⟩
      · rintro ((h2 | ⟨rfl, h2⟩) | ⟨⟨rfl, rfl⟩, h2⟩)
        · exact Or.inl h2
        · exact Or.inr ⟨rfl, Or.inl h2⟩
        · exact Or.inr ⟨rfl, Or.inr ⟨rfl, h2⟩⟩

lemma lex_nil_nil {α : Type} (r : α → α → Prop) : ¬ List.Lex r [] [] := by
  intro h
  cases h

lemma snapshotId_lt_iff (t1 t2 : Timestamp) (c1 c2 : ℕ)
    (h1 : t1.valid) (h2 : t2.valid) (hc1 : c1 < 10 ^ 6) (hc2 : c2 < 10 ^ 6) :
    (snapshotId t1 c1 < snapshotId t2 c2 ↔ chronoBefore t1 c1 t2 c2) := by
  obtain ⟨hy1, hmo1, hd1, hh1, hmi1, hs1, hu1⟩ := h1
  obtain ⟨hy2, hmo2, hd2, hh2, hmi2, hs2, hu2⟩ := h2
  have hstr : snapshotId t1 c1 < snapshotId t2 c2 ↔
      List.Lex (· < ·) (snapshotIdChars t1 c1) (snapshotIdChars t2 c2) :=
    String.lt_iff_toList_lt
  rw [hstr]
  unfold snapshotIdChars chronoBefore chronoKey
  simp only [lex_append_iff (· < ·), lex_cons_iff, lt_irrefl, padDigits_length,
    padDigits_lt_iff, padDigits_inj_iff, lex_nil_nil,
    hy1, hy2, hmo1, hmo2, hd1, hd2, hh1, hh2, hmi1, hmi2, hs1, hs2, hu1, hu2,
    hc1, hc2,
    false_or, and_false, or_false, true_and, and_true, eq_self_iff_true]

lemma snapshotId_eq_iff (t1 t2 : Timestamp) (c1 c2 : ℕ)
    (h1 : t1.valid) (h2 : t2.valid) (hc1 : c1 < 10 ^ 6) (hc2 : c2 < 10 ^ 6) :
    (snapshotId t1 c1 = snapshotId t2 c2 ↔ (t1 = t2 ∧ c1 = c2)) := by
  obtain ⟨hy1, hmo1, hd1, hh1, hmi1, hs1, hu1⟩ := h1
  obtain ⟨hy2, hmo2, hd2, hh2, hmi2, hs2, hu2⟩ := h2
  constructor
  · intro h
    have hl : snapshotIdChars t1 c1 = snapshotIdChars t2 c2 := by
      have := congrArg String.data h
      exact this
    unfold snapshotIdChars at hl
    obtain ⟨e1, hl⟩ := List.append_inj hl (by simp [padDigits_length])
    injection hl with _ hl
    obtain ⟨e2, hl⟩ := List.append_inj hl (by simp [padDigits_length])
    injection hl with _ hl
    obtain ⟨e3, hl⟩ := List.append_inj hl (by simp [padDigits_length])
    injection hl with _ hl
    obtain ⟨e4, hl⟩ := List.append_inj hl (by simp [padDigits_length])
    injection hl with _ hl
    obtain ⟨e5, hl⟩ := List.append_inj hl (by simp [padDigits_length])
    injection hl with _ hl
    obtain ⟨e6, hl⟩ := List.append_inj hl (by simp [padDigits_length])
    injection hl with _ hl
    obtain ⟨e7, hl⟩ := List.append_inj hl (by simp [padDigits_length])
    injection hl with _ e8
    refine ⟨Timestamp.ext ?_ ?_ ?_ ?_ ?_ ?_ ?_, (padDigits_inj_iff 6 c1 c2 hc1 hc2).mp e8⟩
    · exact (padDigits_inj_iff 4 _ _ hy1 hy2).mp e1
    · exact (padDigits_inj_iff 2 _ _ hmo1 hmo2).mp e2
    · exact (padDigits_inj_iff 2 _ _ hd1 hd2).mp e3
    · exact (padDigits_inj_iff 2 _ _ hh1 hh2).mp e4
    · exact (padDigits_inj_iff 2 _ _ hmi1 hmi2).mp e5
    · exact (padDigits_inj_iff 2 _ _ hs1 hs2).mp e6
    · exact (padDigits_inj_iff 6 _ _ hu1 hu2).mp e7
  · rintro ⟨rfl, rfl⟩
    rfl

lemma get_time_state (t : Timestamp) (st : GenState) :
    ∃ c, FileUtil.get_time t st = (snapshotId t c, ⟨some t, c⟩) := by
  unfold FileUtil.get_time
  cases hl : st.last with
  | none => exact ⟨0, rfl⟩
  | some t0 =>
    by_cases h : t0 = t
    · subst h
      exact ⟨st.counter + 1, by simp⟩
    · exact ⟨0, by simp [h]⟩

lemma get_time_same_tick (t : Timestamp) (c0 : ℕ) :
    FileUtil.get_time t ⟨some t, c0⟩ = (snapshotId t (c0 + 1), ⟨some t, c0 + 1⟩) := by
  unfold FileUtil.get_time
  simp

/-- C2: every snapshot identifier the generator can emit is derived from the
wall-clock timestamp at microsecond resolution; identifiers sort lexically
exactly in chronological order (timestamp fields then counter), two
identifiers are equal only at identical tick and counter, and a second call
within the same clock tick still returns a distinct identifier. -/
theorem get_time_sortable_unique (t1 t2 : Timestamp) (c1 c2 : ℕ)
    (h1 : t1.valid) (h2 : t2.valid) (hc1 : c1 < 10 ^ 6) (hc2 : c2 < 10 ^ 6) :
    (snapshotId t1 c1 < snapshotId t2 c2 ↔ chronoBefore t1 c1 t2 c2) ∧
    (snapshotId t1 c1 = snapshotId t2 c2 ↔ (t1 = t2 ∧ c1 = c2)) ∧
    (∀ st : GenState, (FileUtil.get_time t1 st).2.counter + 1 < 10 ^ 6 →
      (FileUtil.get_time t1 ((FileUtil.get_time t1 st).2)).1
        ≠ (FileUtil.get_time t1 st).1) := by
  refine ⟨snapshotId_lt_iff t1 t2 c1 c2 h1 h2 hc1 hc2,
    snapshotId_eq_iff t1 t2 c1 c2 h1 h2 hc1 hc2, ?_⟩
  intro st hb
  obtain ⟨c, hc⟩ := get_time_state t1 st
  rw [hc] at hb ⊢
  simp only at hb ⊢
  rw [get_time_same_tick t1 c]
  simp only
  intro heq
  have := (snapshotId_eq_iff t1 t1 (c + 1) c h1 h1 (by omega) (by omega)).mp heq
  omega

/-- Witness for C2: two identifiers one microsecond apart sort in
chronological order, equality holds only at identical tick and counter, and
a same-tick second call yields a distinct identifier. -/
theorem get_time_sortable_unique_witness :
    (Timestamp.valid ⟨2019, 1, 23, 23, 19, 56, 871484⟩ ∧
      Timestamp.valid ⟨2019, 1, 23, 23, 19, 56, 871485⟩ ∧
      (0 : ℕ) < 10 ^ 6) ∧
    ((snapshotId ⟨2019, 1, 23, 23, 19, 56, 871484⟩ 0
        < snapshotId ⟨2019, 1, 23, 23, 19, 56, 871485⟩ 0 ↔
      chronoBefore ⟨2019, 1, 23, 23, 19, 56, 871484⟩ 0
        ⟨2019, 1, 23, 23, 19, 56, 871485⟩ 0) ∧
    (snapshotId ⟨2019, 1, 23, 23, 19, 56, 871484⟩ 0
        = snapshotId ⟨2019, 1, 23, 23, 19, 56, 871485⟩ 0 ↔
      ((⟨2019, 1, 23, 23, 19, 56, 871484⟩ : Timestamp)
        = ⟨2019, 1, 23, 23, 19, 56, 871485⟩ ∧ (0 : ℕ) = 0)) ∧
    (∀ st : GenState,
      (FileUtil.get_time ⟨2019, 1, 23, 23, 19, 56, 871484⟩ st).2.counter + 1 < 10 ^ 6 →
      (FileUtil.get_time ⟨2019, 1, 23, 23, 19, 56, 871484⟩
          ((FileUtil.get_time ⟨2019, 1, 23, 23, 19, 56, 871484⟩ st).2)).1
        ≠ (FileUtil.get_time ⟨2019, 1, 23, 23, 19, 56, 871484⟩ st).1)) :=
  ⟨⟨by unfold Timestamp.valid; decide, by unfold Timestamp.valid; decide, by decide⟩,
    get_time_sortable_unique ⟨2019, 1, 23, 23, 19, 56, 871484⟩
      ⟨2019, 1, 23, 23, 19, 56, 871485⟩ 0 0
      (by unfold Timestamp.valid; decide) (by unfold Timestamp.valid; decide)
      (by decide) (by decide)⟩
